import Mathlib

/-!
# ddns-for-cdnfly: a verification development of `main.go`

The program samples the public IP addresses the host is seen under, compares
them with the backends of one site on a remote API and replaces the remote
list when they differ.  This file embeds the pure decision logic of
`main.go` and states the properties of it.

Modelling conventions

* Go `string` values are modelled by Lean `String` (well-formed Unicode text).
* Go `int` is modelled by `Int`.
* `map[string]bool` used as a set (`ipSet`): its only writer is
  `ipSet[ip] = true` in `getIPSet`, so a key is present exactly when its value
  is `true`.  It is modelled by `Finset String`: `len(m)` is `Finset.card`,
  `m[k]` is membership, `m[k] = true` is `insert`.
* `for ip := range ipSet` visits every key once in an order the language
  leaves open; the visiting order is an explicit argument (`IsRangeOrder`).
* The network and the file system are explicit arguments.
-/

deriving instance DecidableEq for Except

namespace DDNS

/-! ## Standard library: `strings.TrimSpace`, `strings.Contains`, `strconv.Atoi` -/

/-- Go `unicode.IsSpace`: the Latin-1 spaces `\t \n \v \f \r`, space, U+0085,
U+00A0, and the other code points with the White_Space property. -/
def IsSpace (r : Char) : Bool :=
  let n := r.toNat
  n == 0x09 || n == 0x0A || n == 0x0B || n == 0x0C || n == 0x0D || n == 0x20 ||
  n == 0x85 || n == 0xA0 || n == 0x1680 || (0x2000 ≤ n && n ≤ 0x200A) ||
  n == 0x2028 || n == 0x2029 || n == 0x202F || n == 0x205F || n == 0x3000

/-- Go `strings.TrimLeftFunc(s, unicode.IsSpace)` on the runes of `s`. -/
def trimLeft (s : List Char) : List Char := s.dropWhile IsSpace

/-- Go `strings.TrimRightFunc(s, unicode.IsSpace)` on the runes of `s`. -/
def trimRight (s : List Char) : List Char := (s.reverse.dropWhile IsSpace).reverse

/-- Go `strings.TrimSpace`: leading and trailing white space removed. -/
def TrimSpace (s : String) : String := String.mk (trimRight (trimLeft s.data))

/-- Scan of `strings.Index`: is `substr` a prefix of some suffix of `s`. -/
def containsFrom (substr : List Char) : List Char → Bool
  | [] => substr.isPrefixOf []
  | c :: rest => substr.isPrefixOf (c :: rest) || containsFrom substr rest

/-- Go `strings.Contains(s, substr)`. -/
def Contains (s substr : String) : Bool := containsFrom substr.data s.data

/-- Errors of the program.  The standard library's and the system's errors
are kept abstract; the two `fmt.Errorf` texts of the configuration loader are
constructors of their own. -/
inductive Error where
  /-- Result `strconv.ErrSyntax` of `strconv.Atoi`. -/
  | atoiSyntax (s : String)
  /-- Result `strconv.ErrRange` of `strconv.Atoi`. -/
  | atoiRange (s : String)
  /-- Text "invalid IP_SET_COUNT: %v". -/
  | invalidIPSetCount (cause : Error)
  /-- Text "API_KEY and API_SECRET are required". -/
  | credentialsRequired
  /-- Text "failed to load configuration from environment or file". -/
  | configurationFailed
  /-- An error of the network, the file system or a JSON decoder. -/
  | system (msg : String)
  deriving DecidableEq, Repr

/-- Decimal digit test of `strconv.Atoi`. -/
def isDecimalDigit (c : Char) : Bool := '0'.toNat ≤ c.toNat && c.toNat ≤ '9'.toNat

/-- Value of a run of decimal digits, most significant first. -/
def decimalValue (ds : List Char) : Nat :=
  ds.foldl (fun n c => 10 * n + (c.toNat - '0'.toNat)) 0

/-- Sign handling of `strconv.Atoi`: one leading `+` or `-` is split off. -/
def splitSign : List Char → Bool × List Char
  | '-' :: rest => (true, rest)
  | '+' :: rest => (false, rest)
  | ds => (false, ds)

/-- Go `strconv.Atoi` for a 64-bit `int`: an optional sign and a non-empty run
of decimal digits, whose value lies in `[-2^63, 2^63 - 1]`. -/
def Atoi (s : String) : Except Error Int :=
  let (neg, ds) := splitSign s.data
  if ds = [] ∨ ds.all isDecimalDigit = false then .error (.atoiSyntax s)
  else
    let n := decimalValue ds
    if neg then
      if n > 2 ^ 63 then .error (.atoiRange s) else .ok (-(n : Int))
    else
      if n > 2 ^ 63 - 1 then .error (.atoiRange s) else .ok (n : Int)

/-! ## Data model (`main.go` lines 17-47) -/

/-- Record `Config` of `main.go`. -/
structure Config where
  IPSetCount : Int
  APIKey : String
  APISecret : String
  API : String
  SiteDomain : String
  deriving DecidableEq, Repr

/-- Record `Site` of `main.go`. -/
structure Site where
  ID : Int
  Domain : String
  deriving DecidableEq, Repr

/-- Record `Backend` of `main.go`. -/
structure Backend where
  RowKey : Int
  State : String
  Addr : String
  Weight : Int
  Index : Int
  deriving DecidableEq, Repr

/-- Record `UpdateRequest` of `main.go`: the body of the PUT. -/
structure UpdateRequest where
  Backend : List Backend
  deriving DecidableEq, Repr

/-! ## Configuration loader (lines 49-111) -/

/-- The process environment and the file system as the loader sees them. -/
structure ConfigWorld where
  /-- Go `os.Getenv`: the value, `""` when the variable is unset. -/
  getenv : String → String
  /-- Whether `os.Stat(path)` returns without error. -/
  stat : String → Bool
  /-- Go `os.Open(path)` with the content of the file. -/
  openFile : String → Except Error String
  /-- Go `json.NewDecoder(file).Decode(config)` into a zero `Config`. -/
  decode : String → Except Error Config

/-- Function `loadConfigFromEnv`. -/
def loadConfigFromEnv (getenv : String → String) : Except Error Config :=
  let count : Except Error Int :=
    if getenv "IP_SET_COUNT" ≠ "" then
      match Atoi (getenv "IP_SET_COUNT") with
      | .error err => .error (.invalidIPSetCount err)
      | .ok count => .ok count
    else .ok 2
  match count with
  | .error err => .error err
  | .ok count =>
    let config : Config :=
      { IPSetCount := count
        APIKey := getenv "API_KEY"
        APISecret := getenv "API_SECRET"
        API := getenv "API"
        SiteDomain := getenv "SITE_DOMAIN" }
    if config.APIKey = "" ∨ config.APISecret = "" then .error .credentialsRequired
    else .ok config

/-- Function `loadConfigFromFile`. -/
def loadConfigFromFile (w : ConfigWorld) (filename : String) : Except Error Config :=
  match w.openFile filename with
  | .error err => .error err
  | .ok content =>
    match w.decode content with
    | .error err => .error err
    | .ok config => .ok config

/-- Lines 82-94 of `loadConfig`: the attempt on the configuration file.
The path is a `*string`; `none` is `nil`. -/
def loadConfigFile (w : ConfigWorld) (path : Option String) : Except Error Config :=
  match path with
  | none => .error .configurationFailed
  | some p =>
    if p = "" then .error .configurationFailed
    else if w.stat p then
      match loadConfigFromFile w p with
      | .ok config => .ok config
      | .error _ => .error .configurationFailed
    else .error .configurationFailed

/-- Function `loadConfig`: the environment first, then the file. -/
def loadConfig (w : ConfigWorld) (path : Option String) : Except Error Config :=
  match loadConfigFromEnv w.getenv with
  | .ok config => if config.APIKey ≠ "" then .ok config else loadConfigFile w path
  | .error _ => loadConfigFile w path

/-! ## IP sampler (lines 113-149) -/

/-- What one GET of the IP-echo service produces: the error of the request or
of reading the body, or the body. -/
abbrev Response := Except Error String

/-- Function `getRealIP` on the response of its GET: the trimmed body. -/
def getRealIP (r : Response) : Except Error String :=
  match r with
  | .error err => .error err
  | .ok body => .ok (TrimSpace body)

/-- Outcome of `getIPSet` with the number of calls of `getRealIP` made. -/
structure Sample where
  result : Except Error (Finset String)
  attempts : Nat

/-- Loop of `getIPSet` (lines 136-147) with `fuel` iterations left before the
bound `i < 30` ends it; `net i` is the response to the call of iteration `i`. -/
def getIPSetLoop (count : Int) (net : Nat → Response) :
    Nat → Nat → Finset String → Sample
  | 0, i, ipSet => { result := .ok ipSet, attempts := i }
  | fuel + 1, i, ipSet =>
    match getRealIP (net i) with
    | .error err => { result := .error err, attempts := i + 1 }
    | .ok ip =>
      if ((insert ip ipSet).card : Int) ≥ count then
        { result := .ok (insert ip ipSet), attempts := i + 1 }
      else getIPSetLoop count net fuel (i + 1) (insert ip ipSet)

/-- Function `getIPSet`: at most 30 iterations from the empty map. -/
def getIPSet (count : Int) (net : Nat → Response) : Sample :=
  getIPSetLoop count net 30 0 ∅

/-- The distinct trimmed bodies among the first `n` bodies. -/
def prefixSet (bodies : Nat → String) (n : Nat) : Finset String :=
  (Finset.range n).image (fun i => TrimSpace (bodies i))

/-! ## `checkMultiIP` (lines 151-193) -/

/-- What the GET of `checkMultiIP` and its two JSON decodes produce: a
transport failure, an envelope that does not decode, a `data.backend` string
that does not decode, or the decoded backend array. -/
inductive RemoteReply where
  | transportError (err : Error)
  | envelopeError (err : Error)
  | backendError (err : Error)
  | backends (bs : List Backend)

/-- Loop of lines 186-190: the first backend whose trimmed address is not in
`ipSet` ends the loop with `false`. -/
def checkBackends (ipSet : Finset String) : List Backend → Bool
  | [] => true
  | backend :: rest =>
    if ¬ (TrimSpace backend.Addr ∈ ipSet) then false else checkBackends ipSet rest

/-- Lines 182-192 of `checkMultiIP`: the comparison after both decodes. -/
def compareIPSet (ipSet : Finset String) (backends : List Backend) : Bool :=
  if ipSet.card ≠ backends.length then false
  else checkBackends ipSet backends

/-- Function `checkMultiIP`: a failure of the request or of a decode is
returned as the error, otherwise the comparison. -/
def checkMultiIP (ipSet : Finset String) : RemoteReply → Except Error Bool
  | .transportError err => .error err
  | .envelopeError err => .error err
  | .backendError err => .error err
  | .backends bs => .ok (compareIPSet ipSet bs)

/-! ## `updateMultiIP` (lines 195-240) -/

/-- A visiting order of `for ip := range ipSet`: every key of the map exactly
once. -/
def IsRangeOrder (ipSet : Finset String) (order : List String) : Prop :=
  order.Nodup ∧ order.toFinset = ipSet

instance (ipSet : Finset String) (order : List String) :
    Decidable (IsRangeOrder ipSet order) := by
  unfold IsRangeOrder; infer_instance

/-- Lines 198-207 of `updateMultiIP`: one appended entry per visited key. -/
def updateBackends (order : List String) : List Backend :=
  order.foldl
    (fun backends ip =>
      backends ++ [{ RowKey := 21, State := "up", Addr := ip, Weight := 1, Index := 0 }])
    []

/-- Lines 209-211 of `updateMultiIP`: the request that is marshalled. -/
def updateRequest (order : List String) : UpdateRequest :=
  { Backend := updateBackends order }

/-- Function `updateMultiIP`: the request is marshalled and PUT; `put` is the
outcome of `client.Do` on that body, and only its error is looked at. -/
def updateMultiIP (order : List String) (put : UpdateRequest → Except Error Unit) :
    Except Error Unit :=
  put (updateRequest order)

/-- How a run ends after sampling (lines 311-323 of `main`). -/
inductive Outcome where
  /-- Exit through `log.Fatal`. -/
  | fatal (err : Error)
  /-- Log line "IP地址更新成功": the update was sent. -/
  | updated
  /-- Log line "IP地址无需更新": no update was sent. -/
  | unchanged
  deriving DecidableEq, Repr

/-- Lines 311-323 of `main`: the check, and the update when the check says
the sets differ. -/
def reconcile (ipSet : Finset String) (order : List String) (reply : RemoteReply)
    (put : UpdateRequest → Except Error Unit) : Outcome :=
  match checkMultiIP ipSet reply with
  | .error err => .fatal err
  | .ok ok =>
    if !ok then
      match updateMultiIP order put with
      | .error err => .fatal err
      | .ok _ => .updated
    else .unchanged

/-! ## `getSite` (lines 272-279) -/

/-- Function `getSite`: the first site of the list whose domain contains
`domain`; `none` is Go's `nil`. -/
def getSite : List Site → String → Option Site
  | [], _ => none
  | site :: rest, domain =>
    if Contains site.Domain domain then some site else getSite rest domain

/-! ## Specification-side notions -/

/-- Backend `b'` is backend `b` with white space added before and after its
address. -/
def Padded (b b' : Backend) : Prop :=
  ∃ pre post : List Char, (∀ c ∈ pre, IsSpace c = true) ∧ (∀ c ∈ post, IsSpace c = true) ∧
    b' = { b with Addr := String.mk (pre ++ b.Addr.data ++ post) }

/-! ## Concrete inputs used by the examples -/

/-- An IP-echo service that always answers `1.1.1.1`. -/
def netSame : Nat → Response := fun _ => .ok "1.1.1.1\n"

/-- An IP-echo service that answers `1.1.1.1` once and fails afterwards. -/
def netThenFail : Nat → Response :=
  fun i => if i = 0 then .ok "1.1.1.1\n" else .error (.system "timeout")

/-- Bodies `1.1.1.1`, then `2.2.2.2` for every later call. -/
def bodiesTwo : Nat → String := fun i => if i = 0 then "1.1.1.1\n" else "2.2.2.2\n"

/-- An IP-echo service that answers with `bodiesTwo`. -/
def netTwo : Nat → Response := fun i => .ok (bodiesTwo i)

/-- A backend as the remote API lists it. -/
def remoteBackend (addr : String) : Backend :=
  { RowKey := 7, State := "up", Addr := addr, Weight := 1, Index := 0 }

/-- The configuration a valid `config.json` decodes to. -/
def fileConfig : Config :=
  { IPSetCount := 3, APIKey := "file-key", APISecret := "file-secret",
    API := "https://api.example", SiteDomain := "example.com" }

/-- Key and secret are set in the environment, `IP_SET_COUNT` is `x`, and
`config.json` exists and decodes to `fileConfig`. -/
def worldBadCount : ConfigWorld :=
  { getenv := fun v =>
      if v = "API_KEY" then "env-key" else if v = "API_SECRET" then "env-secret"
      else if v = "IP_SET_COUNT" then "x" else ""
    stat := fun p => p = "config.json"
    openFile := fun p =>
      if p = "config.json" then .ok "valid" else .error (.system "no such file")
    decode := fun content =>
      if content = "valid" then .ok fileConfig else .error (.system "invalid JSON") }

/-- Key and secret are set in the environment, `IP_SET_COUNT` is `5`, and
`config.json` exists and decodes to `fileConfig`. -/
def worldEnvAndFile : ConfigWorld :=
  { worldBadCount with
    getenv := fun v =>
      if v = "API_KEY" then "env-key" else if v = "API_SECRET" then "env-secret"
      else if v = "IP_SET_COUNT" then "5" else "" }

/-- An empty environment, and a `config.json` whose content is the empty JSON
object: it decodes to the zero `Config`. -/
def worldEmptyObject : ConfigWorld :=
  { getenv := fun _ => ""
    stat := fun p => p = "config.json"
    openFile := fun p =>
      if p = "config.json" then .ok "\x7b\x7d" else .error (.system "no such file")
    decode := fun content =>
      if content = "\x7b\x7d" then
        .ok { IPSetCount := 0, APIKey := "", APISecret := "", API := "", SiteDomain := "" }
      else .error (.system "invalid JSON") }

/-! ## Lemmas on the standard library models -/

theorem trimLeft_append_left (pre s : List Char) (h : ∀ c ∈ pre, IsSpace c = true) :
    trimLeft (pre ++ s) = trimLeft s := by
  induction pre with
  | nil => rfl
  | cons c pre ih =>
    have hc : IsSpace c = true := h c (List.mem_cons_self _ _)
    have ih2 := ih (fun d hd => h d (List.mem_cons_of_mem _ hd))
    simp only [trimLeft] at ih2 ⊢
    simp [List.dropWhile_cons, hc, ih2]

theorem trimRight_append_right (s post : List Char) (h : ∀ c ∈ post, IsSpace c = true) :
    trimRight (s ++ post) = trimRight s := by
  have h2 : ∀ c ∈ post.reverse, IsSpace c = true := fun c hc => h c (List.mem_reverse.mp hc)
  have := trimLeft_append_left post.reverse s.reverse h2
  simp only [trimLeft] at this
  simp [trimRight, List.reverse_append, this]

theorem trimRight_nil : trimRight [] = [] := rfl

theorem trimRight_all_space (post : List Char) (h : ∀ c ∈ post, IsSpace c = true) :
    trimRight post = [] := by
  have := trimRight_append_right [] post h
  simpa using this

theorem trimLeft_append_right (s post : List Char) (h : ∀ c ∈ post, IsSpace c = true) :
    trimRight (trimLeft (s ++ post)) = trimRight (trimLeft s) := by
  induction s with
  | nil =>
    have h1 : trimLeft post = [] := by
      have := trimLeft_append_left post [] h
      simpa [trimLeft] using this
    show trimRight (trimLeft post) = trimRight (trimLeft [])
    rw [h1]; rfl
  | cons c s ih =>
    by_cases hc : IsSpace c = true
    · simp only [trimLeft] at ih ⊢
      simpa [List.dropWhile_cons, hc] using ih
    · have e1 : trimLeft (c :: s ++ post) = (c :: s) ++ post := by
        simp [trimLeft, List.dropWhile_cons, hc]
      have e2 : trimLeft (c :: s) = c :: s := by
        simp [trimLeft, List.dropWhile_cons, hc]
      rw [e1, e2, trimRight_append_right _ _ h]

theorem TrimSpace_pad (pre post : List Char) (s : String)
    (hpre : ∀ c ∈ pre, IsSpace c = true) (hpost : ∀ c ∈ post, IsSpace c = true) :
    TrimSpace (String.mk (pre ++ s.data ++ post)) = TrimSpace s := by
  simp only [TrimSpace]
  congr 1
  rw [List.append_assoc, trimLeft_append_left _ _ hpre, trimLeft_append_right _ _ hpost]

theorem trimRight_eq_rdropWhile (s : List Char) : trimRight s = s.rdropWhile IsSpace := rfl

theorem trim_idem (s : List Char) :
    trimRight (trimLeft (trimRight (trimLeft s))) = trimRight (trimLeft s) := by
  have key : trimLeft (trimRight (trimLeft s)) = trimRight (trimLeft s) := by
    generalize hx : trimLeft s = x
    have hxl : trimLeft x = x := by
      rw [← hx]; exact List.dropWhile_idempotent _ _
    have hp : trimRight x <+: x := by
      rw [trimRight_eq_rdropWhile]; exact List.rdropWhile_prefix _ _
    cases hy : trimRight x with
    | nil => rfl
    | cons a y =>
      rw [hy] at hp
      obtain ⟨t, ht⟩ := hp
      have ha : ¬ IsSpace a = true := by
        intro ha
        rw [← ht] at hxl
        simp only [trimLeft, List.cons_append, List.dropWhile_cons, ha, if_true] at hxl
        have hl := (List.dropWhile_suffix IsSpace (l := y ++ t)).length_le
        rw [hxl] at hl
        simp at hl
      simp [trimLeft, List.dropWhile_cons, ha]
  rw [key]
  simp only [trimRight_eq_rdropWhile]
  exact List.rdropWhile_idempotent _ _

theorem TrimSpace_idem (s : String) : TrimSpace (TrimSpace s) = TrimSpace s := by
  simp only [TrimSpace]
  congr 1
  exact trim_idem _

theorem containsFrom_iff (substr s : List Char) :
    containsFrom substr s = true ↔ substr <:+: s := by
  induction s with
  | nil =>
    simp only [containsFrom, List.isPrefixOf_iff_prefix]
    constructor
    · intro h; exact h.isInfix
    · intro h
      have := List.eq_nil_of_infix_nil h
      subst this; exact List.prefix_refl _
  | cons c rest ih =>
    simp only [containsFrom, Bool.or_eq_true, List.isPrefixOf_iff_prefix, ih,
      List.infix_cons_iff]

theorem Contains_iff (s substr : String) :
    Contains s substr = true ↔ substr.data <:+: s.data :=
  containsFrom_iff _ _

/-! ## Lemmas on the comparison and the update -/

theorem checkBackends_iff (ipSet : Finset String) (backends : List Backend) :
    checkBackends ipSet backends = true ↔ ∀ b ∈ backends, TrimSpace b.Addr ∈ ipSet := by
  induction backends with
  | nil => simp [checkBackends]
  | cons b rest ih =>
    by_cases hb : TrimSpace b.Addr ∈ ipSet
    · simp [checkBackends, hb, ih]
    · simp [checkBackends, hb]

theorem compareIPSet_iff (ipSet : Finset String) (backends : List Backend) :
    compareIPSet ipSet backends = true ↔
      ipSet.card = backends.length ∧ ∀ b ∈ backends, TrimSpace b.Addr ∈ ipSet := by
  unfold compareIPSet
  by_cases hc : ipSet.card = backends.length
  · simp [hc, checkBackends_iff]
  · simp [hc]

/-- The trimmed addresses of a backend list, as a set. -/
theorem mem_trimmed_toFinset (backends : List Backend) (s : String) :
    s ∈ (backends.map (fun b => TrimSpace b.Addr)).toFinset ↔
      ∃ b ∈ backends, TrimSpace b.Addr = s := by
  simp

theorem covered_imp_members (ipSet : Finset String) (backends : List Backend)
    (hc : ipSet.card = backends.length)
    (hs : ∀ s ∈ ipSet, ∃ b ∈ backends, TrimSpace b.Addr = s) :
    ∀ b ∈ backends, TrimSpace b.Addr ∈ ipSet := by
  have hsub : ipSet ⊆ (backends.map (fun b => TrimSpace b.Addr)).toFinset := by
    intro s hsm
    exact (mem_trimmed_toFinset backends s).mpr (hs s hsm)
  have hle : (backends.map (fun b => TrimSpace b.Addr)).toFinset.card ≤ ipSet.card := by
    rw [hc]
    simpa using List.toFinset_card_le (backends.map (fun b => TrimSpace b.Addr))
  have heq := Finset.eq_of_subset_of_card_le hsub hle
  intro b hb
  rw [heq]
  exact (mem_trimmed_toFinset backends _).mpr ⟨b, hb, rfl⟩

theorem members_imp_covered (ipSet : Finset String) (backends : List Backend)
    (hnd : (backends.map (fun b => TrimSpace b.Addr)).Nodup)
    (hc : ipSet.card = backends.length)
    (hb : ∀ b ∈ backends, TrimSpace b.Addr ∈ ipSet) :
    ∀ s ∈ ipSet, ∃ b ∈ backends, TrimSpace b.Addr = s := by
  have hsub : (backends.map (fun b => TrimSpace b.Addr)).toFinset ⊆ ipSet := by
    intro s hsm
    obtain ⟨b, hbm, rfl⟩ := (mem_trimmed_toFinset backends s).mp hsm
    exact hb b hbm
  have hle : ipSet.card ≤ (backends.map (fun b => TrimSpace b.Addr)).toFinset.card := by
    rw [List.toFinset_card_of_nodup hnd, hc]; simp
  have heq := Finset.eq_of_subset_of_card_le hsub hle
  intro s hsm
  rw [← heq] at hsm
  exact (mem_trimmed_toFinset backends s).mp hsm

theorem checkBackends_padded (ipSet : Finset String) (bs bs' : List Backend)
    (h : List.Forall₂ Padded bs bs') :
    checkBackends ipSet bs' = checkBackends ipSet bs := by
  induction h with
  | nil => rfl
  | @cons b b' rest rest' hp _ ih =>
    obtain ⟨pre, post, hpre, hpost, rfl⟩ := hp
    simp only [checkBackends, TrimSpace_pad pre post b.Addr hpre hpost, ih]

theorem updateBackends_eq_map (order : List String) :
    updateBackends order =
      order.map (fun ip => { RowKey := 21, State := "up", Addr := ip, Weight := 1, Index := 0 }) := by
  unfold updateBackends
  have gen : ∀ (acc : List Backend),
      order.foldl (fun backends ip =>
        backends ++ [{ RowKey := 21, State := "up", Addr := ip, Weight := 1, Index := 0 }]) acc =
      acc ++ order.map
        (fun ip => { RowKey := 21, State := "up", Addr := ip, Weight := 1, Index := 0 }) := by
    induction order with
    | nil => intro acc; simp
    | cons ip rest ih => intro acc; simp [List.foldl_cons, ih]
  simpa using gen []

theorem updateBackends_addrs (order : List String) :
    (updateBackends order).map Backend.Addr = order := by
  rw [updateBackends_eq_map]
  simp [List.map_map, Function.comp_def]

theorem getSite_eq_none_iff (sites : List Site) (domain : String) :
    getSite sites domain = none ↔ ∀ s ∈ sites, Contains s.Domain domain = false := by
  induction sites with
  | nil => simp [getSite]
  | cons site rest ih =>
    by_cases hc : Contains site.Domain domain = true
    · simp [getSite, hc]
    · simp [getSite, hc, ih]

theorem getSite_eq_some (sites : List Site) (domain : String) (site : Site)
    (h : getSite sites domain = some site) :
    ∃ (i : Nat) (hi : i < sites.length), sites.get ⟨i, hi⟩ = site ∧
      Contains site.Domain domain = true ∧
      ∀ (j : Nat) (hj : j < sites.length), j < i →
        Contains (sites.get ⟨j, hj⟩).Domain domain = false := by
  induction sites with
  | nil => simp [getSite] at h
  | cons s rest ih =>
    by_cases hc : Contains s.Domain domain = true
    · simp only [getSite, hc, if_true, Option.some.injEq] at h
      subst h
      exact ⟨0, by simp, rfl, hc, fun j _ hj => absurd hj (Nat.not_lt_zero j)⟩
    · simp only [getSite, hc] at h
      obtain ⟨i, hi, hget, hcon, hmin⟩ := ih h
      refine ⟨i + 1, by simpa using hi, by simpa using hget, hcon, ?_⟩
      intro j hj hji
      cases j with
      | zero => simpa using hc
      | succ j =>
        have hj2 : j < rest.length := by simpa using hj
        simpa using hmin j hj2 (by omega)

/-! ## Lemmas on the sampling loop -/

theorem getIPSetLoop_attempts_le (count : Int) (net : Nat → Response) :
    ∀ (fuel i : Nat) (ipSet : Finset String),
      (getIPSetLoop count net fuel i ipSet).attempts ≤ i + fuel := by
  intro fuel
  induction fuel with
  | zero => intro i ipSet; simp [getIPSetLoop]
  | succ fuel ih =>
    intro i ipSet
    unfold getIPSetLoop
    cases hr : getRealIP (net i) with
    | error err => simp
    | ok ip =>
      simp only
      split
      · simp
      · have := ih (i + 1) (insert ip ipSet)
        omega

theorem getIPSetLoop_card_le (count : Int) (net : Nat → Response) :
    ∀ (fuel i : Nat) (ipSet : Finset String), (ipSet.card : Int) < max count 1 →
      ∀ T, (getIPSetLoop count net fuel i ipSet).result = .ok T →
        (T.card : Int) ≤ max count 1 := by
  intro fuel
  induction fuel with
  | zero =>
    intro i ipSet hlt T hT
    simp only [getIPSetLoop, Except.ok.injEq] at hT
    subst hT; omega
  | succ fuel ih =>
    intro i ipSet hlt T
    unfold getIPSetLoop
    cases hr : getRealIP (net i) with
    | error err => intro hT; simp at hT
    | ok ip =>
      simp only
      have hins : ((insert ip ipSet).card : Int) ≤ ipSet.card + 1 := by
        exact_mod_cast Finset.card_insert_le ip ipSet
      split
      · intro hT
        simp only [Except.ok.injEq] at hT
        subst hT; omega
      · rename_i hnot
        intro hT
        exact ih (i + 1) (insert ip ipSet) (by omega) T hT

theorem getRealIP_trimmed (r : Response) (ip : String) (h : getRealIP r = .ok ip) :
    TrimSpace ip = ip := by
  cases r with
  | error err => simp [getRealIP] at h
  | ok body =>
    simp only [getRealIP, Except.ok.injEq] at h
    subst h; exact TrimSpace_idem body

theorem getIPSetLoop_trimmed (count : Int) (net : Nat → Response) :
    ∀ (fuel i : Nat) (ipSet : Finset String), (∀ s ∈ ipSet, TrimSpace s = s) →
      ∀ T, (getIPSetLoop count net fuel i ipSet).result = .ok T →
        ∀ s ∈ T, TrimSpace s = s := by
  intro fuel
  induction fuel with
  | zero =>
    intro i ipSet hS T hT
    simp only [getIPSetLoop, Except.ok.injEq] at hT
    subst hT; exact hS
  | succ fuel ih =>
    intro i ipSet hS T
    unfold getIPSetLoop
    cases hr : getRealIP (net i) with
    | error err => intro hT; simp at hT
    | ok ip =>
      simp only
      have hins : ∀ s ∈ insert ip ipSet, TrimSpace s = s := by
        intro s hs
        rcases Finset.mem_insert.mp hs with rfl | hs
        · exact getRealIP_trimmed _ _ hr
        · exact hS s hs
      split
      · intro hT
        simp only [Except.ok.injEq] at hT
        subst hT; exact hins
      · intro hT
        exact ih (i + 1) (insert ip ipSet) hins T hT

theorem getIPSet_trimmed (count : Int) (net : Nat → Response) (T : Finset String)
    (h : (getIPSet count net).result = .ok T) : ∀ s ∈ T, TrimSpace s = s :=
  getIPSetLoop_trimmed count net 30 0 ∅ (by simp) T h

theorem prefixSet_succ (bodies : Nat → String) (i : Nat) :
    insert (TrimSpace (bodies i)) (prefixSet bodies i) = prefixSet bodies (i + 1) := by
  simp [prefixSet, Finset.range_succ, Finset.image_insert]

theorem prefixSet_zero (bodies : Nat → String) : prefixSet bodies 0 = ∅ := by
  simp [prefixSet]

/-- The loop stops at the first iteration after which the map has `count`
keys, when every call up to there succeeds. -/
theorem getIPSetLoop_stop (count : Int) (net : Nat → Response) (bodies : Nat → String)
    (m : Nat) (hreach : count ≤ ((prefixSet bodies m).card : Int)) :
    ∀ (fuel i : Nat), i < m → m ≤ i + fuel →
      (∀ j, i ≤ j → j < m → net j = .ok (bodies j)) →
      (∀ j, i < j → j < m → ((prefixSet bodies j).card : Int) < count) →
      getIPSetLoop count net fuel i (prefixSet bodies i) =
        { result := .ok (prefixSet bodies m), attempts := m } := by
  intro fuel
  induction fuel with
  | zero => intro i h1 h2; omega
  | succ fuel ih =>
    intro i him hmf hok hsmall
    unfold getIPSetLoop
    rw [hok i (le_refl i) him]
    simp only [getRealIP, prefixSet_succ]
    by_cases hlast : i + 1 = m
    · subst hlast
      simp [hreach]
    · have hlt : i + 1 < m := by omega
      have := hsmall (i + 1) (by omega) hlt
      rw [if_neg (by omega)]
      exact ih (i + 1) hlt (by omega) (fun j h1 h2 => hok j (by omega) h2)
        (fun j h1 h2 => hsmall j (by omega) h2)

/-- The loop runs all its iterations when every call succeeds and the map
never reaches `count` keys. -/
theorem getIPSetLoop_exhaust (count : Int) (net : Nat → Response) (bodies : Nat → String) :
    ∀ (fuel i : Nat),
      (∀ j, i ≤ j → j < i + fuel → net j = .ok (bodies j)) →
      (∀ j, i < j → j ≤ i + fuel → ((prefixSet bodies j).card : Int) < count) →
      getIPSetLoop count net fuel i (prefixSet bodies i) =
        { result := .ok (prefixSet bodies (i + fuel)), attempts := i + fuel } := by
  intro fuel
  induction fuel with
  | zero => intro i _ _; simp [getIPSetLoop]
  | succ fuel ih =>
    intro i hok hsmall
    unfold getIPSetLoop
    rw [hok i (le_refl i) (by omega)]
    simp only [getRealIP, prefixSet_succ]
    have := hsmall (i + 1) (by omega) (by omega)
    rw [if_neg (by omega)]
    have e : i + (fuel + 1) = i + 1 + fuel := by omega
    rw [e]
    exact ih (i + 1) (fun j h1 h2 => hok j (by omega) (by omega))
      (fun j h1 h2 => hsmall j (by omega) (by omega))

/-- The loop returns the error of the first failing call when it is reached:
every earlier call succeeds and leaves the map with fewer than `count` keys. -/
theorem getIPSetLoop_fail (count : Int) (net : Nat → Response) (bodies : Nat → String)
    (k : Nat) (err : Error) (hfail : net k = .error err) :
    ∀ (fuel i : Nat), i ≤ k → k < i + fuel →
      (∀ j, i ≤ j → j < k → net j = .ok (bodies j)) →
      (∀ j, i < j → j ≤ k → ((prefixSet bodies j).card : Int) < count) →
      getIPSetLoop count net fuel i (prefixSet bodies i) =
        { result := .error err, attempts := k + 1 } := by
  intro fuel
  induction fuel with
  | zero => intro i h1 h2; omega
  | succ fuel ih =>
    intro i hik hkf hok hsmall
    unfold getIPSetLoop
    by_cases hlast : i = k
    · subst hlast
      rw [hfail]
      simp [getRealIP]
    · have hlt : i < k := by omega
      rw [hok i (le_refl i) hlt]
      simp only [getRealIP, prefixSet_succ]
      have := hsmall (i + 1) (by omega) (by omega)
      rw [if_neg (by omega)]
      exact ih (i + 1) (by omega) (by omega) (fun j h1 h2 => hok j (by omega) h2)
        (fun j h1 h2 => hsmall j (by omega) h2)

/-! ## The comparison of `checkMultiIP` -/

/-- C1 (as amended): after both decodes succeed `checkMultiIP` returns true
exactly when the sampled set has as many members as there are backends and
every backend's trimmed address is a member of the sampled set.  It returns
true whenever the cardinalities agree and every sampled address is the trimmed
address of some backend, and the two conditions coincide when the trimmed
remote addresses are pairwise distinct. -/
theorem C1_checkMultiIP_true_iff (S : Finset String) (B : List Backend) :
    (checkMultiIP S (.backends B) = .ok true ↔
      S.card = B.length ∧ ∀ b ∈ B, TrimSpace b.Addr ∈ S) ∧
    ((S.card = B.length ∧ ∀ s ∈ S, ∃ b ∈ B, TrimSpace b.Addr = s) →
      checkMultiIP S (.backends B) = .ok true) ∧
    ((B.map (fun b => TrimSpace b.Addr)).Nodup →
      (checkMultiIP S (.backends B) = .ok true ↔
        S.card = B.length ∧ ∀ s ∈ S, ∃ b ∈ B, TrimSpace b.Addr = s)) := by
  have hcore : checkMultiIP S (.backends B) = .ok true ↔
      S.card = B.length ∧ ∀ b ∈ B, TrimSpace b.Addr ∈ S := by
    simp only [checkMultiIP, Except.ok.injEq]
    exact compareIPSet_iff S B
  refine ⟨hcore, ?_, ?_⟩
  · rintro ⟨hc, hs⟩
    exact hcore.mpr ⟨hc, covered_imp_members S B hc hs⟩
  · intro hnd
    rw [hcore]
    constructor
    · rintro ⟨hc, hb⟩
      exact ⟨hc, members_imp_covered S B hnd hc hb⟩
    · rintro ⟨hc, hs⟩
      exact ⟨hc, covered_imp_members S B hc hs⟩

/-- Witness of C1: the sampled set and the remote list of the spec's example. -/
theorem C1_checkMultiIP_true_iff_witness :
    (({"1.2.3.4", "5.6.7.8"} : Finset String).card =
        [remoteBackend "1.2.3.4 ", remoteBackend "5.6.7.8"].length ∧
      ∀ s ∈ ({"1.2.3.4", "5.6.7.8"} : Finset String),
        ∃ b ∈ [remoteBackend "1.2.3.4 ", remoteBackend "5.6.7.8"], TrimSpace b.Addr = s) ∧
    checkMultiIP {"1.2.3.4", "5.6.7.8"}
      (.backends [remoteBackend "1.2.3.4 ", remoteBackend "5.6.7.8"]) = .ok true :=
  ⟨by decide,
   (C1_checkMultiIP_true_iff {"1.2.3.4", "5.6.7.8"}
      [remoteBackend "1.2.3.4 ", remoteBackend "5.6.7.8"]).2.1 (by decide)⟩

/-- Counterexample to C1 as stated: against a remote list that repeats one
address the comparison returns true although a sampled address is missing
from the remote list. -/
theorem C1_counterexample :
    checkMultiIP {"1.1.1.1", "2.2.2.2"}
        (.backends [remoteBackend "1.1.1.1", remoteBackend "1.1.1.1"]) = .ok true ∧
    ¬ (({"1.1.1.1", "2.2.2.2"} : Finset String).card =
          [remoteBackend "1.1.1.1", remoteBackend "1.1.1.1"].length ∧
        ∀ s ∈ ({"1.1.1.1", "2.2.2.2"} : Finset String),
          ∃ b ∈ [remoteBackend "1.1.1.1", remoteBackend "1.1.1.1"], TrimSpace b.Addr = s) := by
  decide

/-- C9: padding the addresses of the remote backends with leading or trailing
white space does not change the result of `checkMultiIP`, and the sampled set
`1.2.3.4`, `5.6.7.8` against the remote addresses `1.2.3.4 ` (one trailing
space) and `5.6.7.8` gives true. -/
theorem C9_checkMultiIP_padding (S : Finset String) (B B' : List Backend)
    (h : List.Forall₂ Padded B B') :
    checkMultiIP S (.backends B') = checkMultiIP S (.backends B) ∧
    checkMultiIP {"1.2.3.4", "5.6.7.8"}
      (.backends [remoteBackend "1.2.3.4 ", remoteBackend "5.6.7.8"]) = .ok true := by
  refine ⟨?_, by decide⟩
  simp only [checkMultiIP, compareIPSet, h.length_eq, checkBackends_padded S B B' h]

/-- Witness of C9: the address `1.2.3.4` padded with a tab before and a space
and a newline after. -/
theorem C9_checkMultiIP_padding_witness :
    List.Forall₂ Padded [remoteBackend "1.2.3.4"] [remoteBackend "\t1.2.3.4 \n"] ∧
    checkMultiIP {"1.2.3.4"} (.backends [remoteBackend "\t1.2.3.4 \n"]) =
      checkMultiIP {"1.2.3.4"} (.backends [remoteBackend "1.2.3.4"]) :=
  have hp : List.Forall₂ Padded [remoteBackend "1.2.3.4"] [remoteBackend "\t1.2.3.4 \n"] :=
    List.Forall₂.cons ⟨['\t'], [' ', '\n'], by decide, by decide, by decide⟩ List.Forall₂.nil
  ⟨hp, (C9_checkMultiIP_padding {"1.2.3.4"} _ _ hp).1⟩

/-! ## The backend array of `updateMultiIP` -/

/-- C4: for every visiting order of the sampled set the backend array of the
PUT body has as many entries as the set has members, every entry has row key
21, state "up", weight 1 and index 0, and the addresses of the entries are the
members of the set, each exactly once. -/
theorem C4_updateMultiIP_backends (S : Finset String) (order : List String)
    (h : IsRangeOrder S order) :
    (updateRequest order).Backend.length = S.card ∧
    (∀ b ∈ (updateRequest order).Backend,
      b.RowKey = 21 ∧ b.State = "up" ∧ b.Weight = 1 ∧ b.Index = 0) ∧
    (∀ ip, ip ∈ (updateRequest order).Backend.map Backend.Addr ↔ ip ∈ S) ∧
    (∀ ip ∈ S, ((updateRequest order).Backend.map Backend.Addr).count ip = 1) ∧
    ((updateRequest order).Backend.map Backend.Addr).Nodup := by
  obtain ⟨hnd, hS⟩ := h
  subst hS
  have haddr : (updateRequest order).Backend.map Backend.Addr = order :=
    updateBackends_addrs order
  refine ⟨?_, ?_, ?_, ?_, ?_⟩
  · rw [List.toFinset_card_of_nodup hnd]
    simp [updateRequest, updateBackends_eq_map]
  · intro b hb
    simp only [updateRequest, updateBackends_eq_map, List.mem_map] at hb
    obtain ⟨ip, _, rfl⟩ := hb
    exact ⟨rfl, rfl, rfl, rfl⟩
  · intro ip; rw [haddr]; simp
  · intro ip hip
    rw [haddr]
    exact List.count_eq_one_of_mem hnd (List.mem_toFinset.mp hip)
  · rw [haddr]; exact hnd

/-- Witness of C4: a set of two addresses visited in the order `2.2.2.2`,
`1.1.1.1`. -/
theorem C4_updateMultiIP_backends_witness :
    IsRangeOrder {"1.1.1.1", "2.2.2.2"} ["2.2.2.2", "1.1.1.1"] ∧
    (updateRequest ["2.2.2.2", "1.1.1.1"]).Backend.length =
      ({"1.1.1.1", "2.2.2.2"} : Finset String).card :=
  ⟨by decide, (C4_updateMultiIP_backends {"1.1.1.1", "2.2.2.2"} ["2.2.2.2", "1.1.1.1"]
    (by decide)).1⟩

/-- C10: for a sampled set whose members are trimmed, `checkMultiIP` applied
to the set and to the backend array `updateMultiIP` builds from it (in any
visiting order) returns true, so a run that samples the same set and reads
that array back from the remote API sends no update. -/
theorem C10_update_then_check (S : Finset String) (order : List String)
    (h : IsRangeOrder S order) (htrim : ∀ s ∈ S, TrimSpace s = s) :
    checkMultiIP S (.backends (updateRequest order).Backend) = .ok true ∧
    ∀ (order2 : List String) (put : UpdateRequest → Except Error Unit),
      reconcile S order2 (.backends (updateRequest order).Backend) put = .unchanged := by
  obtain ⟨hnd, hS⟩ := h
  subst hS
  have hcmp : compareIPSet order.toFinset (updateRequest order).Backend = true := by
    rw [compareIPSet_iff]
    constructor
    · rw [List.toFinset_card_of_nodup hnd]
      simp [updateRequest, updateBackends_eq_map]
    · intro b hb
      simp only [updateRequest, updateBackends_eq_map, List.mem_map] at hb
      obtain ⟨ip, hip, rfl⟩ := hb
      have hm : ip ∈ order.toFinset := List.mem_toFinset.mpr hip
      show TrimSpace ip ∈ order.toFinset
      rw [htrim ip hm]; exact hm
  constructor
  · simp only [checkMultiIP, hcmp]
  · intro order2 put
    simp only [reconcile, checkMultiIP, hcmp, Bool.not_true, Bool.false_eq_true, if_false]

/-- Witness of C10: the set of the addresses `1.1.1.1` and `2.2.2.2`, visited
in the order `2.2.2.2`, `1.1.1.1`. -/
theorem C10_update_then_check_witness :
    IsRangeOrder {"1.1.1.1", "2.2.2.2"} ["2.2.2.2", "1.1.1.1"] ∧
    (∀ s ∈ ({"1.1.1.1", "2.2.2.2"} : Finset String), TrimSpace s = s) ∧
    checkMultiIP {"1.1.1.1", "2.2.2.2"}
      (.backends (updateRequest ["2.2.2.2", "1.1.1.1"]).Backend) = .ok true :=
  ⟨by decide, by decide,
   (C10_update_then_check {"1.1.1.1", "2.2.2.2"} ["2.2.2.2", "1.1.1.1"]
      (by decide) (by decide)).1⟩

/-! ## Site resolution -/

/-- C5: `getSite` returns nil exactly when no site's domain contains the
substring; a site it returns is the one at the smallest index whose domain
contains the substring; for the domains `a.example.com`, `xa.example.org` and
the substring `a.example` it returns the first site, and the match is
case-sensitive. -/
theorem C5_getSite_first_match (sites : List Site) (d : String) :
    (getSite sites d = none ↔ ∀ s ∈ sites, ¬ d.data <:+: s.Domain.data) ∧
    (∀ site, getSite sites d = some site →
      ∃ (i : Nat) (hi : i < sites.length), sites.get ⟨i, hi⟩ = site ∧
        d.data <:+: site.Domain.data ∧
        ∀ (j : Nat) (hj : j < sites.length), j < i →
          ¬ d.data <:+: (sites.get ⟨j, hj⟩).Domain.data) ∧
    getSite [{ ID := 1, Domain := "a.example.com" }, { ID := 2, Domain := "xa.example.org" }]
      "a.example" = some { ID := 1, Domain := "a.example.com" } ∧
    getSite [{ ID := 1, Domain := "A.EXAMPLE.com" }, { ID := 2, Domain := "xa.example.org" }]
      "a.example" = some { ID := 2, Domain := "xa.example.org" } := by
  refine ⟨?_, ?_, by decide, by decide⟩
  · rw [getSite_eq_none_iff]
    constructor
    · intro h s hs hin
      have := (Contains_iff s.Domain d).mpr hin
      rw [h s hs] at this
      exact Bool.false_ne_true this
    · intro h s hs
      cases hc : Contains s.Domain d with
      | false => rfl
      | true => exact absurd ((Contains_iff s.Domain d).mp hc) (h s hs)
  · intro site hsite
    obtain ⟨i, hi, hget, hcon, hmin⟩ := getSite_eq_some sites d site hsite
    refine ⟨i, hi, hget, (Contains_iff _ _).mp hcon, ?_⟩
    intro j hj hji hin
    have := (Contains_iff _ _).mpr hin
    rw [hmin j hj hji] at this
    exact Bool.false_ne_true this

/-- Witness of C5: the second site is returned when only it matches, and it
sits at index 1 with no match before it. -/
theorem C5_getSite_first_match_witness :
    getSite [{ ID := 1, Domain := "b.example.com" }, { ID := 2, Domain := "xa.example.org" }]
      "a.example" = some { ID := 2, Domain := "xa.example.org" } ∧
    ∃ (i : Nat) (hi : i < [({ ID := 1, Domain := "b.example.com" } : Site),
          { ID := 2, Domain := "xa.example.org" }].length),
      [({ ID := 1, Domain := "b.example.com" } : Site),
          { ID := 2, Domain := "xa.example.org" }].get ⟨i, hi⟩ =
        { ID := 2, Domain := "xa.example.org" } ∧
      "a.example".data <:+: ({ ID := 2, Domain := "xa.example.org" } : Site).Domain.data ∧
      ∀ (j : Nat) (hj : j < [({ ID := 1, Domain := "b.example.com" } : Site),
          { ID := 2, Domain := "xa.example.org" }].length), j < i →
        ¬ "a.example".data <:+: ([({ ID := 1, Domain := "b.example.com" } : Site),
          { ID := 2, Domain := "xa.example.org" }].get ⟨j, hj⟩).Domain.data :=
  ⟨by decide,
   (C5_getSite_first_match
      [{ ID := 1, Domain := "b.example.com" }, { ID := 2, Domain := "xa.example.org" }]
      "a.example").2.1 { ID := 2, Domain := "xa.example.org" } (by decide)⟩

/-! ## The IP sampler -/

/-- C2 (as amended): for every target count and every sequence of responses
`getIPSet` makes at most 30 calls of the IP-echo service, and a set it returns
has at most `max count 1` members, hence at most `count` members when `count`
is at least 1. -/
theorem C2_getIPSet_bounds (count : Int) (net : Nat → Response) :
    (getIPSet count net).attempts ≤ 30 ∧
    (∀ T, (getIPSet count net).result = .ok T → (T.card : Int) ≤ max count 1) ∧
    (1 ≤ count → ∀ T, (getIPSet count net).result = .ok T → (T.card : Int) ≤ count) := by
  have hb : ∀ T, (getIPSet count net).result = .ok T → (T.card : Int) ≤ max count 1 := by
    intro T hT
    refine getIPSetLoop_card_le count net 30 0 ∅ ?_ T hT
    have h0 : (0 : Int) < max count 1 := by omega
    simp only [Finset.card_empty, Nat.cast_zero]
    exact h0
  refine ⟨?_, hb, ?_⟩
  · have := getIPSetLoop_attempts_le count net 30 0 ∅
    simpa [getIPSet] using this
  · intro h1 T hT
    have := hb T hT
    omega

/-- Witness of C2: target count 1 against a service answering one address. -/
theorem C2_getIPSet_bounds_witness :
    (1 : Int) ≤ 1 ∧ (getIPSet 1 netSame).result = .ok {"1.1.1.1"} ∧
    ((({"1.1.1.1"} : Finset String).card : Int) ≤ 1) :=
  ⟨by decide, by decide,
   (C2_getIPSet_bounds 1 netSame).2.2 (by decide) {"1.1.1.1"} (by decide)⟩

/-- Counterexample to C2 as stated: with target count 0 (which is at most 30)
the first iteration inserts an address before the size test, so the returned
set has one member, more than the target count. -/
theorem C2_counterexample :
    (0 : Int) ≤ 30 ∧ (getIPSet 0 netSame).result = .ok {"1.1.1.1"} ∧
    ¬ ((({"1.1.1.1"} : Finset String).card : Int) ≤ 0) := by
  decide

/-- C3 (as amended): when call number `k` (from 1 to 30) of the IP-echo
service fails, every earlier call succeeds, and after each earlier call the
map has fewer than `count` keys, then `getIPSet` makes exactly `k` calls and
returns the error of call `k` and no set. -/
theorem C3_getIPSet_error (count : Int) (net : Nat → Response) (bodies : Nat → String)
    (k : Nat) (err : Error) (hk1 : 1 ≤ k) (hk30 : k ≤ 30)
    (hfail : net (k - 1) = .error err)
    (hok : ∀ j, j < k - 1 → net j = .ok (bodies j))
    (hsmall : ∀ j, 1 ≤ j → j < k → ((prefixSet bodies j).card : Int) < count) :
    getIPSet count net = { result := .error err, attempts := k } := by
  have h := getIPSetLoop_fail count net bodies (k - 1) err hfail 30 0 (Nat.zero_le _)
    (by omega) (fun j _ hj => hok j hj) (fun j h1 h2 => hsmall j (by omega) (by omega))
  have e : k - 1 + 1 = k := by omega
  rw [prefixSet_zero, e] at h
  exact h

/-- Witness of C3: target count 2, the first call answers `1.1.1.1`, the
second call fails. -/
theorem C3_getIPSet_error_witness :
    netThenFail (2 - 1) = .error (.system "timeout") ∧
    getIPSet 2 netThenFail = { result := .error (.system "timeout"), attempts := 2 } :=
  ⟨by decide,
   C3_getIPSet_error 2 netThenFail (fun _ => "1.1.1.1\n") 2 (.system "timeout")
    (by decide) (by decide) (by decide)
    (fun j hj => by
      have : j = 0 := by omega
      subst this; rfl)
    (fun j h1 h2 => by
      have : j = 1 := by omega
      subst this; decide)⟩

/-- Counterexample to C3 as stated: with target count 1 the first answer
already fills the set, the loop stops, and the failing second response is
never requested: `getIPSet` returns the set and no error. -/
theorem C3_counterexample :
    netThenFail (2 - 1) = .error (.system "timeout") ∧
    (getIPSet 1 netThenFail).result = .ok {"1.1.1.1"} ∧
    (getIPSet 1 netThenFail).attempts = 1 ∧
    (getIPSet 1 netThenFail).result ≠ .error (.system "timeout") := by
  decide

/-- C8: let `m` (from 1 to 30) be the first call after which the trimmed
bodies seen so far have at least `count` distinct values, or 30 when no
earlier call gets there.  When the calls up to `m` all succeed, `getIPSet`
makes exactly `m` calls and returns, without error, the set of the trimmed
bodies of the first `m` calls; at `m = 30` this holds whether or not the set
has `count` members. -/
theorem C8_getIPSet_success (count : Int) (net : Nat → Response) (bodies : Nat → String)
    (m : Nat) (hm1 : 1 ≤ m) (hm30 : m ≤ 30)
    (hok : ∀ j, j < m → net j = .ok (bodies j))
    (hsmall : ∀ j, 1 ≤ j → j < m → ((prefixSet bodies j).card : Int) < count)
    (hstop : count ≤ ((prefixSet bodies m).card : Int) ∨ m = 30) :
    getIPSet count net = { result := .ok (prefixSet bodies m), attempts := m } := by
  by_cases hreach : count ≤ ((prefixSet bodies m).card : Int)
  · have h := getIPSetLoop_stop count net bodies m hreach 30 0 (by omega) (by omega)
      (fun j _ hj => hok j hj) (fun j h1 h2 => hsmall j (by omega) h2)
    rw [prefixSet_zero] at h
    exact h
  · have hm : m = 30 := by
      rcases hstop with h | h
      · exact absurd h hreach
      · exact h
    subst hm
    have h := getIPSetLoop_exhaust count net bodies 30 0
      (fun j _ hj => hok j (by omega))
      (fun j h1 h2 => by
        rcases Nat.lt_or_ge j 30 with hlt | hge
        · exact hsmall j (by omega) hlt
        · have : j = 30 := by omega
          subst this; omega)
    rw [prefixSet_zero] at h
    simp only [Nat.zero_add] at h
    exact h

/-- Witness of C8: target count 2, the bodies `1.1.1.1` then `2.2.2.2`: the
loop stops after the second call. -/
theorem C8_getIPSet_success_witness :
    ((2 : Int) ≤ ((prefixSet bodiesTwo 2).card : Int) ∨ 2 = 30) ∧
    getIPSet 2 netTwo = { result := .ok (prefixSet bodiesTwo 2), attempts := 2 } :=
  ⟨Or.inl (by decide),
   C8_getIPSet_success 2 netTwo bodiesTwo 2 (by decide) (by decide)
    (fun _ _ => rfl)
    (fun j h1 h2 => by
      have : j = 1 := by omega
      subst this; decide)
    (Or.inl (by decide))⟩

/-! ## The configuration loader -/

/-- C6 (as amended): when `API_KEY` and `API_SECRET` are both non-empty in the
environment and `IP_SET_COUNT` is empty (count 2) or accepted by
`strconv.Atoi` (count its value), `loadConfig` returns the configuration
built from the environment, whatever the path and the file are. -/
theorem C6_loadConfig_env_first (w : ConfigWorld) (path : Option String) (n : Int)
    (hkey : w.getenv "API_KEY" ≠ "") (hsecret : w.getenv "API_SECRET" ≠ "")
    (hcount : (w.getenv "IP_SET_COUNT" = "" ∧ n = 2) ∨
      (w.getenv "IP_SET_COUNT" ≠ "" ∧ Atoi (w.getenv "IP_SET_COUNT") = .ok n)) :
    loadConfig w path = .ok
      { IPSetCount := n
        APIKey := w.getenv "API_KEY"
        APISecret := w.getenv "API_SECRET"
        API := w.getenv "API"
        SiteDomain := w.getenv "SITE_DOMAIN" } := by
  rcases hcount with ⟨he, rfl⟩ | ⟨hne, hat⟩
  · simp [loadConfig, loadConfigFromEnv, he, hkey, hsecret]
  · simp [loadConfig, loadConfigFromEnv, hne, hat, hkey, hsecret]

/-- Witness of C6: key, secret and `IP_SET_COUNT=5` in the environment and a
valid `config.json` next to them. -/
theorem C6_loadConfig_env_first_witness :
    worldEnvAndFile.getenv "API_KEY" ≠ "" ∧ worldEnvAndFile.getenv "API_SECRET" ≠ "" ∧
    loadConfigFromFile worldEnvAndFile "config.json" = .ok fileConfig ∧
    loadConfig worldEnvAndFile (some "config.json") = .ok
      { IPSetCount := 5
        APIKey := worldEnvAndFile.getenv "API_KEY"
        APISecret := worldEnvAndFile.getenv "API_SECRET"
        API := worldEnvAndFile.getenv "API"
        SiteDomain := worldEnvAndFile.getenv "SITE_DOMAIN" } :=
  ⟨by decide, by decide, by decide,
   C6_loadConfig_env_first worldEnvAndFile (some "config.json") 5 (by decide) (by decide)
    (Or.inr ⟨by decide, by decide⟩)⟩

/-- Counterexample to C6 as stated: key and secret are set in the environment
but `IP_SET_COUNT` is `x`; the environment attempt is rejected and
`loadConfig` returns the configuration of the file. -/
theorem C6_counterexample :
    worldBadCount.getenv "API_KEY" ≠ "" ∧ worldBadCount.getenv "API_SECRET" ≠ "" ∧
    loadConfigFromEnv worldBadCount.getenv =
      .error (.invalidIPSetCount (.atoiSyntax "x")) ∧
    loadConfig worldBadCount (some "config.json") = .ok fileConfig ∧
    fileConfig.APIKey ≠ worldBadCount.getenv "API_KEY" := by
  decide

/-- C7, the code at the failing input: with no credentials in the environment
and a `config.json` holding the empty JSON object, `loadConfig` succeeds with
an empty API key and an empty API secret. -/
theorem C7_loadConfig_file_unvalidated :
    loadConfig worldEmptyObject (some "config.json") =
      .ok { IPSetCount := 0, APIKey := "", APISecret := "", API := "", SiteDomain := "" } ∧
    loadConfigFromEnv worldEmptyObject.getenv = .error .credentialsRequired := by
  decide

end DDNS
